import Mathlib

/-!
Shallow embedding of the LocoIno firmware (src/GCA185-LocoIO/LocoIno.cpp).

The firmware keeps a 51-byte configuration table (a C union of a struct and
a byte array) that is indexed without bounds checks, so the table is modelled
as a total function from byte offsets to byte values: offsets 0..50 are the
table proper, larger offsets stand for adjacent memory. Peer-transfer packets
are modelled field by field after the lnMsg peer-transfer layout used by the
code (command, mesg_size, src, dst_l, dst_h, pxct1, d1..d4, pxct2, d5..d8).
The Arduino bit macros bitRead, bitWrite, bitSet, bitClear on uint8_t values
are modelled on Nat with an explicit 8-bit mask where the C complement is
truncated to 8 bits.
-/

namespace LocoIno

/-- The whole addressable byte memory seen through svtable.data; offsets
0..50 are the configuration table, larger offsets are adjacent memory. -/
abbrev Mem := Nat → Nat

/-- Firmware version constant, line 54 of the source. -/
def VERSION : Nat := 101

/-- Arduino pinMap table, line 57 of the source. -/
def pinMap : List Nat := [2, 3, 4, 5, 6, 9, 10, 11, 12, 13, 14, 15, 16, 17, 18, 19]

/-- Arduino bitRead macro: bit n of x, as 0 or 1. -/
def bitRead (x n : Nat) : Nat := (x >>> n) &&& 1

/-- Arduino bitSet macro on a uint8_t value. -/
def bitSet8 (x n : Nat) : Nat := x ||| (1 <<< n)

/-- Arduino bitClear macro on a uint8_t value: the complement mask is the
8-bit truncation of the C expression with a tilde. -/
def bitClear8 (x n : Nat) : Nat := x &&& (255 ^^^ (1 <<< n))

/-- Arduino bitWrite macro: set bit n of x when b is nonzero, clear it
otherwise. -/
def bitWrite8 (x n b : Nat) : Nat := if b ≠ 0 then bitSet8 x n else bitClear8 x n

/-- Pointwise update of the byte memory, the effect of an assignment to
svtable.data at an index. -/
def writeMem (m : Mem) (i v : Nat) : Mem := fun j => if j = i then v else m j

/-- Field svtable.svt.vrsion, overlaid on byte 0. -/
def vrsion (m : Mem) : Nat := m 0

/-- Field svtable.svt.addr_low, overlaid on byte 1. -/
def addr_low (m : Mem) : Nat := m 1

/-- Field svtable.svt.addr_high, overlaid on byte 2. -/
def addr_high (m : Mem) : Nat := m 2

/-- Field svtable.svt.pincfg[n].cnfg, overlaid on byte 3 + 3 * n. -/
def pinCnfg (m : Mem) (n : Nat) : Nat := m (3 + 3 * n)

/-- Field svtable.svt.pincfg[n].value1, overlaid on byte 4 + 3 * n. -/
def pinValue1 (m : Mem) (n : Nat) : Nat := m (4 + 3 * n)

/-- Field svtable.svt.pincfg[n].value2, overlaid on byte 5 + 3 * n. -/
def pinValue2 (m : Mem) (n : Nat) : Nat := m (5 + 3 * n)

/-- The peer-transfer view of an lnMsg packet, the px fields used by the
code in source order. -/
structure PeerXfer where
  command : Nat
  mesg_size : Nat
  src : Nat
  dst_l : Nat
  dst_h : Nat
  pxct1 : Nat
  d1 : Nat
  d2 : Nat
  d3 : Nat
  d4 : Nat
  pxct2 : Nat
  d5 : Nat
  d6 : Nat
  d7 : Nat
  d8 : Nat
deriving DecidableEq, Repr

/-- LocoNet opcode OPC_PEER_XFER. -/
def OPC_PEER_XFER : Nat := 0xE5

/-- Lines 269 to 272 of processPeerPacket: the destination check on the raw
dst_l and d5 bytes, before any high-bit restoration. The code rejects when
all three disjunctive mismatch clauses hold; acceptance is the negation. -/
def isAddressedToUs (m : Mem) (p : PeerXfer) : Bool :=
  !(((p.dst_l != 0) || (p.d5 != 0)) &&
    ((p.dst_l != 0x7f) || (p.d5 != addr_high m)) &&
    ((p.dst_l != addr_low m) || (p.d5 != addr_high m)))

/-- Lines 275 to 283 of processPeerPacket: restore bit 7 of each of the 8
data bytes from the corresponding bit of the control bytes pxct1, pxct2. -/
def restoreHighBits (p : PeerXfer) : PeerXfer :=
  { command := p.command, mesg_size := p.mesg_size, src := p.src,
    dst_l := p.dst_l, dst_h := p.dst_h,
    pxct1 := p.pxct1,
    d1 := bitWrite8 p.d1 7 (bitRead p.pxct1 0),
    d2 := bitWrite8 p.d2 7 (bitRead p.pxct1 1),
    d3 := bitWrite8 p.d3 7 (bitRead p.pxct1 2),
    d4 := bitWrite8 p.d4 7 (bitRead p.pxct1 3),
    pxct2 := p.pxct2,
    d5 := bitWrite8 p.d5 7 (bitRead p.pxct2 0),
    d6 := bitWrite8 p.d6 7 (bitRead p.pxct2 1),
    d7 := bitWrite8 p.d7 7 (bitRead p.pxct2 2),
    d8 := bitWrite8 p.d8 7 (bitRead p.pxct2 3) }

/-- Lines 342 to 357 of sendPeerPacket: relocate bit 7 of each data byte
into the control bytes and clear bit 7 of every data byte. -/
def packHighBits (t : PeerXfer) : PeerXfer :=
  { command := t.command, mesg_size := t.mesg_size, src := t.src,
    dst_l := t.dst_l, dst_h := t.dst_h,
    pxct1 := bitWrite8 (bitWrite8 (bitWrite8 (bitWrite8 t.pxct1 0 (bitRead t.d1 7))
              1 (bitRead t.d2 7)) 2 (bitRead t.d3 7)) 3 (bitRead t.d4 7),
    d1 := bitClear8 t.d1 7,
    d2 := bitClear8 t.d2 7,
    d3 := bitClear8 t.d3 7,
    d4 := bitClear8 t.d4 7,
    pxct2 := bitWrite8 (bitWrite8 (bitWrite8 (bitWrite8 t.pxct2 0 (bitRead t.d5 7))
              1 (bitRead t.d6 7)) 2 (bitRead t.d7 7)) 3 (bitRead t.d8 7),
    d5 := bitClear8 t.d5 7,
    d6 := bitClear8 t.d6 7,
    d7 := bitClear8 t.d7 7,
    d8 := bitClear8 t.d8 7 }

/-- Lines 322 to 359: build the reply packet from the current table and the
received packet rx (whose d1, d2 have already been restored in place by the
caller), then pack the high bits. The record fields are assigned exactly as
in the source, with pxct1 and pxct2 initialized to 0 before packing. -/
def sendPeerPacket (m : Mem) (rx : PeerXfer) (p0 p1 p2 : Nat) : PeerXfer :=
  packHighBits
    { command := OPC_PEER_XFER, mesg_size := 0x10,
      src := addr_low m, dst_l := rx.src, dst_h := rx.dst_h,
      pxct1 := 0x00,
      d1 := rx.d1, d2 := rx.d2, d3 := vrsion m, d4 := 0x00,
      pxct2 := 0x00,
      d5 := addr_high m, d6 := p0, d7 := p1, d8 := p2 }

/-- Observable outcome of processPeerPacket: the boolean the function
returns, the table memory afterwards, the EEPROM writes performed in order,
and the reply packet passed to LocoNet.send, when any. -/
structure PPOut where
  handled : Bool
  table : Mem
  eeprom : List (Nat × Nat)
  reply : Option PeerXfer

/-- Lines 263 to 320: processPeerPacket. Checks the opcode, checks the
destination on the raw bytes, restores high bits, then dispatches on the
restored command byte d1: 2 reads table bytes d2, d2 + 1, d2 + 2 with no
bounds check; 1 writes d4 into table byte d2 (and EEPROM) when d2 > 0 and
always answers echoing d4; anything else is not handled. -/
def processPeerPacket (m : Mem) (pkt : PeerXfer) : PPOut :=
  if pkt.command ≠ OPC_PEER_XFER then ⟨false, m, [], none⟩
  else if !(isAddressedToUs m pkt) then ⟨false, m, [], none⟩
  else
    let p := restoreHighBits pkt
    if p.d1 = 2 then
      ⟨true, m, [], some (sendPeerPacket m p (m p.d2) (m (p.d2 + 1)) (m (p.d2 + 2)))⟩
    else if p.d1 = 1 then
      if p.d2 > 0 then
        let m2 := writeMem m p.d2 p.d4
        ⟨true, m2, [(p.d2, p.d4)], some (sendPeerPacket m2 p 0 0 p.d4)⟩
      else
        ⟨true, m, [], some (sendPeerPacket m p 0 0 p.d4)⟩
    else ⟨false, m, [], none⟩

/-- Lines 108 to 116 of setup: for every pin index, configure the hardware
direction; for input pins also seed bit 4 of value2 from the current
hardware level (hw gives digitalRead per Arduino pin number). Only the
memory effect is modelled; pinMode calls have no effect on the table. -/
def setupPins (hw : Nat → Nat) : Mem → List Nat → Mem
  | m, [] => m
  | m, n :: rest =>
    if bitRead (pinCnfg m n) 7 = 1 then setupPins hw m rest
    else
      setupPins hw
        (writeMem m (5 + 3 * n)
          (bitWrite8 (pinValue2 m n) 4 (hw (pinMap.getD n 0)))) rest

/-- Lines 95 to 117 of setup, after the EEPROM load: validate the loaded
table. On a version mismatch, set vrsion, addr_low, addr_high to their
defaults in memory and write those three bytes to EEPROM; otherwise run the
pin configuration loop. Returns the table afterwards and the EEPROM writes
performed. -/
def setupValidate (loaded : Mem) (hw : Nat → Nat) : Mem × List (Nat × Nat) :=
  if loaded 0 ≠ VERSION then
    (writeMem (writeMem (writeMem loaded 0 VERSION) 1 81) 2 1,
     [(0, VERSION), (1, 81), (2, 1)])
  else
    (setupPins hw loaded (List.range 16), [])

/-- One recorded digitalWrite: the logical pin index and the level driven
(true = HIGH). A pulse appears as a HIGH write followed by a LOW write. -/
abbrev PinAction := Nat × Bool

/-- Lines 201 to 234 of notifySwitchRequest: scan the pin indices in order.
A pin whose value1 equals Address - 1 (computed in C int arithmetic) and
whose cnfg bit 7 is set enters the policy dispatch; a firing branch emits
its digitalWrite actions and breaks, otherwise the scan continues with the
next index. Direction has already been normalized to 0 or 1. -/
def switchScan (m : Mem) (Address OutputV Direction : Nat) : List Nat → List PinAction
  | [] => []
  | n :: rest =>
    if (pinValue1 m n : Int) = (Address : Int) - 1 ∧ bitRead (pinCnfg m n) 7 = 1 then
      if bitRead (pinCnfg m n) 3 = 1 ∧ bitRead (pinValue2 m n) 5 = Direction ∧ OutputV ≠ 0 then
        [(n, true), (n, false)]
      else if bitRead (pinCnfg m n) 3 = 0 ∧ bitRead (pinCnfg m n) 2 = 1 ∧
          bitRead (pinValue2 m n) 5 = Direction then
        [(n, decide (OutputV ≠ 0))]
      else if bitRead (pinCnfg m n) 3 = 0 ∧ bitRead (pinCnfg m n) 2 = 0 ∧ OutputV ≠ 0 then
        [(n, decide (Direction = 0))]
      else switchScan m Address OutputV Direction rest
    else switchScan m Address OutputV Direction rest

/-- Lines 185 to 235: notifySwitchRequest. Normalizes Direction to 0 or 1
(line 189) and scans the 16 pins. -/
def notifySwitchRequest (m : Mem) (Address OutputV Direction : Nat) : List PinAction :=
  switchScan m Address OutputV (if Direction = 0 then 0 else 1) (List.range 16)

/-- A pin both matches the request address as an output and has a policy
branch that reacts to the request (the break condition of the scan loop). -/
def pinReacts (m : Mem) (n Address OutputV Direction : Nat) : Prop :=
  ((pinValue1 m n : Int) = (Address : Int) - 1 ∧ bitRead (pinCnfg m n) 7 = 1) ∧
  ((bitRead (pinCnfg m n) 3 = 1 ∧ bitRead (pinValue2 m n) 5 = Direction ∧ OutputV ≠ 0) ∨
   (bitRead (pinCnfg m n) 3 = 0 ∧ bitRead (pinCnfg m n) 2 = 1 ∧
     bitRead (pinValue2 m n) 5 = Direction) ∨
   (bitRead (pinCnfg m n) 3 = 0 ∧ bitRead (pinCnfg m n) 2 = 0 ∧ OutputV ≠ 0))

instance (m : Mem) (n a o d : Nat) : Decidable (pinReacts m n a o d) := by
  unfold pinReacts; infer_instance

/-- The digitalWrite actions the firing branch of pin n performs, matching
the branch order of the source. -/
def pinActions (m : Mem) (n OutputV Direction : Nat) : List PinAction :=
  if bitRead (pinCnfg m n) 3 = 1 ∧ bitRead (pinValue2 m n) 5 = Direction ∧ OutputV ≠ 0 then
    [(n, true), (n, false)]
  else if bitRead (pinCnfg m n) 3 = 0 ∧ bitRead (pinCnfg m n) 2 = 1 ∧
      bitRead (pinValue2 m n) 5 = Direction then
    [(n, decide (OutputV ≠ 0))]
  else
    [(n, decide (Direction = 0))]

/-- Memory whose bytes 51 and 52, just past the 51-byte table, are nonzero;
all table bytes are zero. -/
def c1MemA : Mem := fun i => if i = 51 then 10 else if i = 52 then 20 else 0

/-- Memory that is zero everywhere, agreeing with c1MemA on the table. -/
def c1MemB : Mem := fun _ => 0

/-- Broadcast SV read frame with starting register 50. -/
def c1Read : PeerXfer :=
  { command := 0xE5, mesg_size := 0x10, src := 0, dst_l := 0, dst_h := 0,
    pxct1 := 0, d1 := 2, d2 := 50, d3 := 0, d4 := 0,
    pxct2 := 0, d5 := 0, d6 := 0, d7 := 0, d8 := 0 }

/-- Broadcast SV write frame targeting register 51 with value 7. -/
def c1Write : PeerXfer :=
  { command := 0xE5, mesg_size := 0x10, src := 0, dst_l := 0, dst_h := 0,
    pxct1 := 0, d1 := 1, d2 := 51, d3 := 0, d4 := 7,
    pxct2 := 0, d5 := 0, d6 := 0, d7 := 0, d8 := 0 }

/-- Table whose pin 0 is a continuous, software-reset output with network
address 4 and polarity bit set (Closed); every other byte is zero. -/
def c2Mem : Mem := fun i =>
  if i = 3 then 128 else if i = 4 then 4 else if i = 5 then 32 else 0

/-- Table whose pin 0 is a pulse output with address 4 and polarity bit set,
and whose pin 1 is a continuous, software-reset output with the same
address 4; every other byte is zero. -/
def c3Mem : Mem := fun i =>
  if i = 3 then 136 else if i = 4 then 4 else if i = 5 then 32 else
  if i = 6 then 128 else if i = 7 then 4 else 0

/-- All-zero table used for the write-then-read scenario. -/
def c5Mem : Mem := fun _ => 0

/-- Broadcast SV write frame for register 5 carrying value 200: the wire
d4 byte is 72 and its high bit travels in pxct1 bit 3. -/
def c5W : PeerXfer :=
  { command := 0xE5, mesg_size := 0x10, src := 0, dst_l := 0, dst_h := 0,
    pxct1 := 8, d1 := 1, d2 := 5, d3 := 0, d4 := 72,
    pxct2 := 0, d5 := 0, d6 := 0, d7 := 0, d8 := 0 }

/-- Broadcast SV read frame starting at register 5. -/
def c5R : PeerXfer :=
  { command := 0xE5, mesg_size := 0x10, src := 0, dst_l := 0, dst_h := 0,
    pxct1 := 0, d1 := 2, d2 := 5, d3 := 0, d4 := 0,
    pxct2 := 0, d5 := 0, d6 := 0, d7 := 0, d8 := 0 }

/-- A packet with zeroed control bytes and a spread of payload byte values,
several with bit 7 set. -/
def c6Pkt : PeerXfer :=
  { command := 0xE5, mesg_size := 0x10, src := 3, dst_l := 4, dst_h := 5,
    pxct1 := 0, d1 := 1, d2 := 130, d3 := 200, d4 := 7,
    pxct2 := 0, d5 := 255, d6 := 0, d7 := 128, d8 := 64 }

/-- All-zero table used for the single-write-effect scenario. -/
def c8Mem : Mem := fun _ => 0

/-- Broadcast SV write frame for register 5 carrying value 200, as in the
write-then-read scenario. -/
def c8W : PeerXfer :=
  { command := 0xE5, mesg_size := 0x10, src := 0, dst_l := 0, dst_h := 0,
    pxct1 := 8, d1 := 1, d2 := 5, d3 := 0, d4 := 72,
    pxct2 := 0, d5 := 0, d6 := 0, d7 := 0, d8 := 0 }

/-- Same table as c3Mem, used to witness that only output pins are driven. -/
def c9Mem : Mem := fun i =>
  if i = 3 then 136 else if i = 4 then 4 else if i = 5 then 32 else
  if i = 6 then 128 else if i = 7 then 4 else 0

/-! Helper lemmas about the Arduino bit macros and the scan loop. -/

theorem bitRead_le_one (x n : Nat) : bitRead x n ≤ 1 := by
  simp [bitRead, Nat.and_one_is_mod]
  omega

set_option maxRecDepth 8192 in
theorem byte_rt : ∀ b < 256, bitWrite8 (bitClear8 b 7) 7 (bitRead b 7) = b := by decide

theorem pxct_extract : ∀ a ≤ 1, ∀ b ≤ 1, ∀ c ≤ 1, ∀ d ≤ 1,
    bitRead (bitWrite8 (bitWrite8 (bitWrite8 (bitWrite8 0 0 a) 1 b) 2 c) 3 d) 0 = a ∧
    bitRead (bitWrite8 (bitWrite8 (bitWrite8 (bitWrite8 0 0 a) 1 b) 2 c) 3 d) 1 = b ∧
    bitRead (bitWrite8 (bitWrite8 (bitWrite8 (bitWrite8 0 0 a) 1 b) 2 c) 3 d) 2 = c ∧
    bitRead (bitWrite8 (bitWrite8 (bitWrite8 (bitWrite8 0 0 a) 1 b) 2 c) 3 d) 3 = d := by
  decide

theorem switchScan_eq_find (m : Mem) (A O D : Nat) (idxs : List Nat) :
    switchScan m A O D idxs =
      match idxs.find? (fun n => decide (pinReacts m n A O D)) with
      | none => []
      | some n => pinActions m n O D := by
  induction idxs with
  | nil => rfl
  | cons n rest ih =>
    by_cases hm : (pinValue1 m n : Int) = (A : Int) - 1 ∧ bitRead (pinCnfg m n) 7 = 1
    · by_cases h1 : bitRead (pinCnfg m n) 3 = 1 ∧ bitRead (pinValue2 m n) 5 = D ∧ O ≠ 0
      · have hr : pinReacts m n A O D := ⟨hm, Or.inl h1⟩
        simp [switchScan, List.find?, hm, h1, hr, pinActions]
      · by_cases h2 : bitRead (pinCnfg m n) 3 = 0 ∧ bitRead (pinCnfg m n) 2 = 1 ∧
            bitRead (pinValue2 m n) 5 = D
        · have hr : pinReacts m n A O D := ⟨hm, Or.inr (Or.inl h2)⟩
          simp [switchScan, List.find?, hm, h1, h2, hr, pinActions]
        · by_cases h3 : bitRead (pinCnfg m n) 3 = 0 ∧ bitRead (pinCnfg m n) 2 = 0 ∧ O ≠ 0
          · have hr : pinReacts m n A O D := ⟨hm, Or.inr (Or.inr h3)⟩
            simp [switchScan, List.find?, hm, h1, h2, h3, hr, pinActions]
          · have hr : ¬ pinReacts m n A O D := by
              rintro ⟨hm2, hb⟩
              rcases hb with hb | hb | hb
              · exact h1 hb
              · exact h2 hb
              · exact h3 hb
            simp [switchScan, List.find?, hm, h1, h2, h3, hr, ih]
    · have hr : ¬ pinReacts m n A O D := fun h => hm h.1
      simp [switchScan, List.find?, hm, hr, ih]

theorem pinActions_fst (m : Mem) (n O D : Nat) :
    ∀ a ∈ pinActions m n O D, a.1 = n := by
  intro a ha
  unfold pinActions at ha
  split at ha
  · simp only [List.mem_cons, List.not_mem_nil, or_false] at ha
    rcases ha with rfl | rfl <;> rfl
  · split at ha <;> (simp only [List.mem_singleton] at ha; rw [ha])

theorem mem_switchScan (m : Mem) (A O D : Nat) (idxs : List Nat) (a : PinAction)
    (h : a ∈ switchScan m A O D idxs) :
    a.1 ∈ idxs ∧ pinReacts m a.1 A O D := by
  rw [switchScan_eq_find] at h
  cases hf : idxs.find? (fun n => decide (pinReacts m n A O D)) with
  | none => rw [hf] at h; simp at h
  | some n =>
    rw [hf] at h
    have hfst : a.1 = n := pinActions_fst m n O D a h
    have hmem : n ∈ idxs := List.mem_of_find?_eq_some hf
    have hp : pinReacts m n A O D := by
      have := List.find?_some hf
      simpa using this
    rw [hfst]
    exact ⟨hmem, hp⟩

/-- C7: the destination check of processPeerPacket accepts an incoming
peer-transfer frame exactly when it is a broadcast (dst_l = 0 and d5 = 0),
or the programming address (dst_l = 0x7F with d5 equal to our high address),
or an exact match of our low and high addresses; every other combination of
dst_l and d5 is rejected. -/
theorem c7_address_check (m : Mem) (p : PeerXfer) :
    isAddressedToUs m p = true ↔
      ((p.dst_l = 0 ∧ p.d5 = 0) ∨
       (p.dst_l = 0x7f ∧ p.d5 = addr_high m) ∨
       (p.dst_l = addr_low m ∧ p.d5 = addr_high m)) := by
  simp only [isAddressedToUs, Bool.not_eq_eq_eq_not, Bool.not_true, Bool.and_eq_false_imp,
    Bool.and_eq_true, Bool.or_eq_true, Bool.or_eq_false_iff, bne_eq_false_iff_eq,
    bne_iff_ne, ne_eq]
  tauto

/-- C10: whether a peer-transfer frame passes the destination check depends
only on the dst_l and d5 bytes as received on the wire; two frames that
differ only in the control byte pxct2 are both accepted or both rejected,
because the check runs before high-bit restoration. -/
theorem c10_check_ignores_pxct2 (m : Mem) (p : PeerXfer) (x : Nat) :
    isAddressedToUs m { p with pxct2 := x } = isAddressedToUs m p := rfl

/-- C1: the claim that out-of-range register offsets fail with a
BoundsError is refuted by the code: on two memories that agree on every
table byte 0..50 but differ just past the table, an SV read starting at
offset 50 produces different replies (it fetches bytes 51 and 52), and an
SV write to offset 51 stores and persists a byte outside the table. -/
theorem c1_no_bounds_check :
    (∀ i < 51, c1MemA i = c1MemB i) ∧
    (processPeerPacket c1MemA c1Read).reply ≠ (processPeerPacket c1MemB c1Read).reply ∧
    (processPeerPacket c1MemB c1Write).table 51 = 7 ∧
    (processPeerPacket c1MemB c1Write).eeprom = [(51, 7)] := by
  decide

/-- C3 counterexample: pin 0 and pin 1 are both outputs stored with network
address 4; on the request (address 5, on, Thrown) pin 0 is the first match
but its pulse policy ignores the request (its polarity bit disagrees with
the direction), the scan continues, and pin 1 is driven high: the first
matching pin is not the only pin that can be acted upon. -/
theorem c3_counterexample :
    ((pinValue1 c3Mem 0 : Int) = (5 : Int) - 1 ∧ bitRead (pinCnfg c3Mem 0) 7 = 1) ∧
    ((pinValue1 c3Mem 1 : Int) = (5 : Int) - 1 ∧ bitRead (pinCnfg c3Mem 1) 7 = 1) ∧
    notifySwitchRequest c3Mem 5 1 0 = [(1, true)] := by
  decide

/-- C3 amended: pins are scanned in index order and the request acts on the
first pin whose address matches, whose direction is output, and whose
configured policy reacts to the request; a matching output pin whose policy
ignores the request does not stop the scan, so a later pin with the same
address may be acted upon, and the actions of that one firing pin are the
entire effect of the request. -/
theorem c3_first_reacting_pin_wins (m : Mem) (A O D0 : Nat) :
    notifySwitchRequest m A O D0 =
      match (List.range 16).find?
          (fun n => decide (pinReacts m n A O (if D0 = 0 then 0 else 1))) with
      | none => []
      | some n => pinActions m n O (if D0 = 0 then 0 else 1) := by
  unfold notifySwitchRequest
  exact switchScan_eq_find m A O (if D0 = 0 then 0 else 1) (List.range 16)

/-- C9: handling a switch request never drives a pin configured as input;
any recorded digitalWrite targets a pin whose cnfg bit 7 is set (output),
so a pin with cnfg bit 7 clear is never written, even when its stored
address matches the request. -/
theorem c9_only_outputs_driven (m : Mem) (A O D0 : Nat) (i : Nat) (l : Bool)
    (h : (i, l) ∈ notifySwitchRequest m A O D0) :
    bitRead (pinCnfg m i) 7 = 1 := by
  unfold notifySwitchRequest at h
  have := mem_switchScan m A O (if D0 = 0 then 0 else 1) (List.range 16) (i, l) h
  exact this.2.1.2

/-- C9 witness: on the c9Mem table the request (5, on, Thrown) drives pin 1,
and that pin is indeed configured as an output. -/
theorem c9_only_outputs_driven_witness :
    ((1, true) ∈ notifySwitchRequest c9Mem 5 1 0) ∧ bitRead (pinCnfg c9Mem 1) 7 = 1 :=
  ⟨by decide, c9_only_outputs_driven c9Mem 5 1 0 1 true (by decide)⟩

/-- C2 counterexample: pin 0 of c2Mem is a continuous, software-reset
output whose stored polarity bit is 1 (Closed). The on-request with
direction Closed, which equals the polarity, is claimed to drive the pin
high, but the code drives it low: the toggle branch never consults the
polarity bit and keys on the raw direction instead. -/
theorem c2_counterexample :
    bitRead (pinCnfg c2Mem 0) 7 = 1 ∧
    bitRead (pinCnfg c2Mem 0) 3 = 0 ∧
    bitRead (pinCnfg c2Mem 0) 2 = 0 ∧
    bitRead (pinValue2 c2Mem 0) 5 = 1 ∧
    notifySwitchRequest c2Mem 5 1 1 = [(0, false)] ∧
    (0, true) ∉ notifySwitchRequest c2Mem 5 1 1 := by
  decide

/-- C2 amended: for a continuous, software-reset (toggle) output pin that
is the first pin considered by the scan, an on-request with raw direction
Thrown (0) drives the pin high and an on-request with direction Closed
(nonzero) drives it low, regardless of the stored polarity bit; an
off-request performs no write on that pin. -/
theorem c2_toggle_keys_on_direction (m : Mem) (n : Nat) (rest : List Nat) (A O D0 : Nat)
    (hmatch : (pinValue1 m n : Int) = (A : Int) - 1)
    (hout : bitRead (pinCnfg m n) 7 = 1)
    (hcont : bitRead (pinCnfg m n) 3 = 0)
    (hsoft : bitRead (pinCnfg m n) 2 = 0)
    (hnotin : n ∉ rest) :
    (O ≠ 0 → switchScan m A O (if D0 = 0 then 0 else 1) (n :: rest) =
        [(n, decide (D0 = 0))]) ∧
    (O = 0 → ∀ l, (n, l) ∉ switchScan m A O (if D0 = 0 then 0 else 1) (n :: rest)) := by
  constructor
  · intro hO
    simp only [switchScan]
    rw [if_pos ⟨hmatch, hout⟩]
    rw [if_neg (by rintro ⟨hb, _, _⟩; omega)]
    rw [if_neg (by rintro ⟨_, hb, _⟩; omega)]
    rw [if_pos ⟨hcont, hsoft, hO⟩]
    by_cases hD0 : D0 = 0 <;> simp [hD0]
  · intro hO l hl
    simp only [switchScan] at hl
    rw [if_pos ⟨hmatch, hout⟩] at hl
    rw [if_neg (by rintro ⟨_, _, hb⟩; exact hb hO)] at hl
    rw [if_neg (by rintro ⟨_, hb, _⟩; omega)] at hl
    rw [if_neg (by rintro ⟨_, _, hb⟩; exact hb hO)] at hl
    have := mem_switchScan m A O (if D0 = 0 then 0 else 1) rest (n, l) hl
    exact hnotin this.1

/-- C2 amended witness: on c2Mem the on-request with direction Closed on
the toggle pin 0 yields exactly the low write. -/
theorem c2_toggle_keys_on_direction_witness :
    ((1 : Nat) ≠ 0 → switchScan c2Mem 5 1 (if (1 : Nat) = 0 then 0 else 1) (0 :: [1]) =
        [(0, decide ((1 : Nat) = 0))]) ∧
    ((1 : Nat) = 0 → ∀ l, (0, l) ∉ switchScan c2Mem 5 1 (if (1 : Nat) = 0 then 0 else 1) (0 :: [1])) :=
  c2_toggle_keys_on_direction c2Mem 0 [1] 5 1 1 (by decide) (by decide) (by decide)
    (by decide) (by decide)

/-- C4: when the loaded table carries a format version different from the
expected one, startup validation sets the version byte to the current
version, addr_low to 81 and addr_high to 1, persists exactly those three
bytes, and leaves every pin-entry byte (offsets 3..50) exactly as loaded. -/
theorem c4_version_mismatch (loaded : Mem) (hw : Nat → Nat)
    (h : loaded 0 ≠ VERSION) :
    (setupValidate loaded hw).1 0 = VERSION ∧
    (setupValidate loaded hw).1 1 = 81 ∧
    (setupValidate loaded hw).1 2 = 1 ∧
    (setupValidate loaded hw).2 = [(0, VERSION), (1, 81), (2, 1)] ∧
    (∀ i, 3 ≤ i → i ≤ 50 → (setupValidate loaded hw).1 i = loaded i) := by
  unfold setupValidate
  rw [if_pos h]
  refine ⟨rfl, rfl, rfl, rfl, ?_⟩
  intro i h3 h50
  show writeMem (writeMem (writeMem loaded 0 VERSION) 1 81) 2 1 i = loaded i
  unfold writeMem
  rw [if_neg (by omega), if_neg (by omega), if_neg (by omega)]

/-- C4 witness: an all-zero loaded table has version 0, which differs from
the expected 101, and validation resets the three addressing bytes while
the pin bytes stay zero. -/
theorem c4_version_mismatch_witness :
    (setupValidate (fun _ => 0) (fun _ => 0)).1 0 = VERSION ∧
    (setupValidate (fun _ => 0) (fun _ => 0)).1 1 = 81 ∧
    (setupValidate (fun _ => 0) (fun _ => 0)).1 2 = 1 ∧
    (setupValidate (fun _ => 0) (fun _ => 0)).2 = [(0, VERSION), (1, 81), (2, 1)] ∧
    (∀ i, 3 ≤ i → i ≤ 50 →
      (setupValidate (fun _ => 0) (fun _ => 0)).1 i = (fun _ => (0 : Nat)) i) :=
  c4_version_mismatch (fun _ => 0) (fun _ => 0) (by decide)

/-- C6: packing the 8 payload bytes for the wire (relocating each bit 7
into the two 4-bit control bytes and clearing bit 7 of every payload byte)
and then unpacking restores the original 8 bytes. -/
theorem c6_pack_unpack_roundtrip (t : PeerXfer)
    (h1 : t.d1 < 256) (h2 : t.d2 < 256) (h3 : t.d3 < 256) (h4 : t.d4 < 256)
    (h5 : t.d5 < 256) (h6 : t.d6 < 256) (h7 : t.d7 < 256) (h8 : t.d8 < 256)
    (hp1 : t.pxct1 = 0) (hp2 : t.pxct2 = 0) :
    (restoreHighBits (packHighBits t)).d1 = t.d1 ∧
    (restoreHighBits (packHighBits t)).d2 = t.d2 ∧
    (restoreHighBits (packHighBits t)).d3 = t.d3 ∧
    (restoreHighBits (packHighBits t)).d4 = t.d4 ∧
    (restoreHighBits (packHighBits t)).d5 = t.d5 ∧
    (restoreHighBits (packHighBits t)).d6 = t.d6 ∧
    (restoreHighBits (packHighBits t)).d7 = t.d7 ∧
    (restoreHighBits (packHighBits t)).d8 = t.d8 := by
  obtain ⟨e1, e2, e3, e4⟩ :=
    pxct_extract (bitRead t.d1 7) (bitRead_le_one _ _) (bitRead t.d2 7) (bitRead_le_one _ _)
      (bitRead t.d3 7) (bitRead_le_one _ _) (bitRead t.d4 7) (bitRead_le_one _ _)
  obtain ⟨f1, f2, f3, f4⟩ :=
    pxct_extract (bitRead t.d5 7) (bitRead_le_one _ _) (bitRead t.d6 7) (bitRead_le_one _ _)
      (bitRead t.d7 7) (bitRead_le_one _ _) (bitRead t.d8 7) (bitRead_le_one _ _)
  simp only [restoreHighBits, packHighBits, hp1, hp2]
  exact ⟨by rw [e1]; exact byte_rt t.d1 h1,
         by rw [e2]; exact byte_rt t.d2 h2,
         by rw [e3]; exact byte_rt t.d3 h3,
         by rw [e4]; exact byte_rt t.d4 h4,
         by rw [f1]; exact byte_rt t.d5 h5,
         by rw [f2]; exact byte_rt t.d6 h6,
         by rw [f3]; exact byte_rt t.d7 h7,
         by rw [f4]; exact byte_rt t.d8 h8⟩

/-- C6 witness: the round trip restores the payload bytes of a concrete
packet whose payload mixes values with and without bit 7 set. -/
theorem c6_pack_unpack_roundtrip_witness :
    (restoreHighBits (packHighBits c6Pkt)).d1 = c6Pkt.d1 ∧
    (restoreHighBits (packHighBits c6Pkt)).d2 = c6Pkt.d2 ∧
    (restoreHighBits (packHighBits c6Pkt)).d3 = c6Pkt.d3 ∧
    (restoreHighBits (packHighBits c6Pkt)).d4 = c6Pkt.d4 ∧
    (restoreHighBits (packHighBits c6Pkt)).d5 = c6Pkt.d5 ∧
    (restoreHighBits (packHighBits c6Pkt)).d6 = c6Pkt.d6 ∧
    (restoreHighBits (packHighBits c6Pkt)).d7 = c6Pkt.d7 ∧
    (restoreHighBits (packHighBits c6Pkt)).d8 = c6Pkt.d8 :=
  c6_pack_unpack_roundtrip c6Pkt (by decide) (by decide) (by decide) (by decide)
    (by decide) (by decide) (by decide) (by decide) (by decide) (by decide)

/-- C8: an accepted SV write for a register offset reg with 0 < reg ≤ 50
sets exactly table byte reg to the written value, persists exactly that one
byte to EEPROM, and leaves every other table byte, the version byte at
offset 0 included, unchanged. -/
theorem c8_write_single_byte (m : Mem) (w : PeerXfer) (reg V : Nat)
    (hc : w.command = OPC_PEER_XFER)
    (ha : isAddressedToUs m w = true)
    (h1 : (restoreHighBits w).d1 = 1)
    (h2 : (restoreHighBits w).d2 = reg)
    (h4 : (restoreHighBits w).d4 = V)
    (h0 : 0 < reg) (h50 : reg ≤ 50) :
    (processPeerPacket m w).table reg = V ∧
    (∀ i, i ≠ reg → (processPeerPacket m w).table i = m i) ∧
    (processPeerPacket m w).eeprom = [(reg, V)] := by
  have hout : (processPeerPacket m w).table = writeMem m reg V ∧
      (processPeerPacket m w).eeprom = [(reg, V)] := by
    simp only [processPeerPacket, hc, ne_eq, not_true_eq_false, if_false, ha,
      Bool.not_true, Bool.false_eq_true, h1, h2, h4, h0, if_pos]
    simp [h0.ne.symm]
  refine ⟨?_, ?_, hout.2⟩
  · rw [hout.1]; simp [writeMem]
  · intro i hi
    rw [hout.1]
    unfold writeMem
    rw [if_neg hi]

/-- C8 witness: on an all-zero table, the broadcast write of value 200 to
register 5 updates byte 5, persists (5, 200), and leaves other bytes. -/
theorem c8_write_single_byte_witness :
    (processPeerPacket c8Mem c8W).table 5 = 200 ∧
    (∀ i, i ≠ 5 → (processPeerPacket c8Mem c8W).table i = c8Mem i) ∧
    (processPeerPacket c8Mem c8W).eeprom = [(5, 200)] :=
  c8_write_single_byte c8Mem c8W 5 200 (by decide) (by decide) (by decide) (by decide)
    (by decide) (by decide) (by decide)

theorem sendPeerPacket_d6 (m : Mem) (rx : PeerXfer) (p0 p1 p2 : Nat) (h : p0 < 256) :
    (restoreHighBits (sendPeerPacket m rx p0 p1 p2)).d6 = p0 := by
  obtain ⟨f1, f2, f3, f4⟩ :=
    pxct_extract (bitRead (addr_high m) 7) (bitRead_le_one _ _) (bitRead p0 7) (bitRead_le_one _ _)
      (bitRead p1 7) (bitRead_le_one _ _) (bitRead p2 7) (bitRead_le_one _ _)
  simp only [sendPeerPacket, packHighBits, restoreHighBits]
  rw [f2]
  exact byte_rt p0 h

/-- C5: after an accepted SV write of value V to register reg with
0 < reg ≤ 50, an accepted SV read starting at reg yields a reply whose
first returned data byte (payload byte 6 after high-bit restoration)
equals V. -/
theorem c5_write_then_read (m : Mem) (w r : PeerXfer) (reg V : Nat)
    (hwc : w.command = OPC_PEER_XFER)
    (hwa : isAddressedToUs m w = true)
    (hw1 : (restoreHighBits w).d1 = 1)
    (hw2 : (restoreHighBits w).d2 = reg)
    (hw4 : (restoreHighBits w).d4 = V)
    (hV : V < 256)
    (h0 : 0 < reg) (h50 : reg ≤ 50)
    (hrc : r.command = OPC_PEER_XFER)
    (hra : isAddressedToUs (processPeerPacket m w).table r = true)
    (hr1 : (restoreHighBits r).d1 = 2)
    (hr2 : (restoreHighBits r).d2 = reg) :
    ∃ rep, (processPeerPacket (processPeerPacket m w).table r).reply = some rep ∧
      (restoreHighBits rep).d6 = V := by
  have htab : (processPeerPacket m w).table = writeMem m reg V := by
    simp only [processPeerPacket, hwc, ne_eq, not_true_eq_false, if_false, hwa,
      Bool.not_true, Bool.false_eq_true, hw1, hw2, hw4, h0, if_pos]
    simp [h0.ne.symm]
  have hv : (processPeerPacket m w).table reg = V := by
    rw [htab]; simp [writeMem]
  have hread : ∀ mm : Mem, isAddressedToUs mm r = true →
      (processPeerPacket mm r).reply =
        some (sendPeerPacket mm (restoreHighBits r) (mm reg) (mm (reg + 1)) (mm (reg + 2))) := by
    intro mm hmm
    simp [processPeerPacket, hrc, hmm, hr1, hr2]
  refine ⟨_, hread _ hra, ?_⟩
  rw [sendPeerPacket_d6 _ _ _ _ _ (by rw [hv]; exact hV)]
  exact hv

/-- C5 witness: writing 200 to register 5 of an all-zero table and then
reading from register 5 returns 200 as the first data byte. -/
theorem c5_write_then_read_witness :
    ∃ rep, (processPeerPacket (processPeerPacket c5Mem c5W).table c5R).reply = some rep ∧
      (restoreHighBits rep).d6 = 200 :=
  c5_write_then_read c5Mem c5W c5R 5 200 (by decide) (by decide) (by decide) (by decide)
    (by decide) (by decide) (by decide) (by decide) (by decide) (by decide) (by decide)
    (by decide)

end LocoIno
